import Mathlib

/-!
Verification of the YouTube video info & download tool (yd.py).

The Python source is shallowly embedded: each worker's `run` body becomes a
pure function from the results of its external calls (the extraction library,
the HTTP transfer, the filesystem) to the list of Qt signals it emits; GUI
slot handlers become functions on an explicit interface-state record.
Python dictionaries with possibly-missing keys become structures of `Option`
fields, with `Option.getD` embedding `dict.get(key, default)`.
-/

namespace YD

/-- A thumbnail candidate as supplied by the extraction library:
`width`/`height` may be absent (`x.get('width', 0)` treats absence as 0),
`id` is the identifier text (`str(thumb.get('id',''))`), `url` the image URL. -/
structure Thumbnail where
  width : Option Nat
  height : Option Nat
  id : String
  url : String
deriving DecidableEq, Repr

/-- A comment record (`comment.get('author'|'text'|'like_count')`). -/
structure Comment where
  author : Option String
  text : Option String
  like_count : Option Nat
deriving DecidableEq, Repr

/-- The dictionary returned by `ydl.extract_info`: every key may be missing. -/
structure InfoDict where
  title : Option String
  view_count : Option Nat
  like_count : Option Nat
  duration : Option Nat
  upload_date : Option String
  uploader : Option String
  description : Option String
  thumbnails : Option (List Thumbnail)
  comments : Option (List Comment)
deriving DecidableEq, Repr

/-- The `video_data` dictionary built by `VideoInfoExtractor.run`. -/
structure VideoData where
  title : String
  view_count : Nat
  like_count : Nat
  duration : Nat
  upload_date : String
  uploader : String
  description : String
  thumbnails : List Thumbnail
  comments : List Comment
  url : String
deriving DecidableEq, Repr

/-- `VideoInfoExtractor.run`'s construction of `video_data` from `info`
(yd.py lines 54-65): each field is `info.get(key, default)`. -/
def build_video_data (url : String) (info : InfoDict) : VideoData :=
  { title := info.title.getD "Unknown"
    view_count := info.view_count.getD 0
    like_count := info.like_count.getD 0
    duration := info.duration.getD 0
    upload_date := info.upload_date.getD "Unknown"
    uploader := info.uploader.getD "Unknown"
    description := info.description.getD ""
    thumbnails := info.thumbnails.getD []
    comments := info.comments.getD []
    url := url }

/-- The characters `re.sub(r'[<>:"/\\|?*]', '_', ·)` replaces. -/
def badFilenameChar (c : Char) : Bool :=
  decide (c ∈ ['<', '>', ':', '"', '/', '\\', '|', '?', '*'])

/-- `safe_title = re.sub(r'[<>:"/\\|?*]', '_', video_title)` (yd.py line 100):
a character-class substitution replaces each listed character by `_`. -/
def sanitize_title (s : String) : String :=
  ⟨s.data.map (fun c => if badFilenameChar c then '_' else c)⟩

/-- Substring containment on character lists (Python's `in` on strings). -/
def listInfix (pat : List Char) : List Char → Bool
  | [] => pat.isEmpty
  | c :: cs => pat.isPrefixOf (c :: cs) || listInfix pat cs

/-- Python `pat in hay` for strings. -/
def containsStr (pat hay : String) : Bool :=
  listInfix pat.data hay.data

/-- Python `str.lower()` (ASCII case folding suffices for the identifiers and
quality tags involved). -/
def lowerStr (s : String) : String :=
  ⟨s.data.map Char.toLower⟩

/-- Extension inference in `ThumbnailDownloader.run` (yd.py lines 122-128):
`'webp' in content_type`, then `'png' in content_type`, else `.jpg`. -/
def infer_ext (content_type : String) : String :=
  if containsStr "webp" content_type then ".webp"
  else if containsStr "png" content_type then ".png"
  else ".jpg"

/-- `filename = f"{safe_title}_thumbnail_{quality}{ext}"` (yd.py line 131). -/
def thumbnail_filename (title quality content_type : String) : String :=
  sanitize_title title ++ "_thumbnail_" ++ quality ++ infer_ext content_type

/-- The quality-dependent part of the `ydl_opts` built by `VideoDownloader.run`:
the format selector string and the post-processor list. -/
structure Postprocessor where
  key : String
  preferredcodec : String
  preferredquality : String
deriving DecidableEq, Repr

/-- Format selector and post-processors chosen by `VideoDownloader.run`
(yd.py lines 232-262) from the quality selector and media type. -/
structure FormatOpts where
  format : String
  postprocessors : List Postprocessor
deriving DecidableEq, Repr

/-- `VideoDownloader.run`'s quality/type dispatch (yd.py lines 232-262). -/
def configure_format (quality format_type : String) : FormatOpts :=
  if quality = "best" then
    if format_type = "video" then
      { format := "best[ext=mp4]/best", postprocessors := [] }
    else
      { format := "bestaudio[ext=m4a]/bestaudio"
        postprocessors := [⟨"FFmpegExtractAudio", "mp3", "192"⟩] }
  else if quality = "worst" then
    if format_type = "video" then
      { format := "worst[ext=mp4]/worst", postprocessors := [] }
    else
      { format := "worstaudio[ext=m4a]/worstaudio"
        postprocessors := [⟨"FFmpegExtractAudio", "mp3", "128"⟩] }
  else
    if format_type = "video" then
      { format := "best[height<=" ++ quality ++ "][ext=mp4]/best[height<=" ++ quality ++ "]"
        postprocessors := [] }
    else
      { format := "bestaudio[ext=m4a]/bestaudio"
        postprocessors := [⟨"FFmpegExtractAudio", "mp3", "192"⟩] }

/-! ### Thumbnail selection (`ThumbnailDownloader.select_thumbnail_by_quality`) -/

/-- The sort key `lambda x: (x.get('width', 0), x.get('height', 0))`. -/
def thumbKey (t : Thumbnail) : Nat × Nat :=
  (t.width.getD 0, t.height.getD 0)

/-- Python tuple order (lexicographic) on the sort keys, as `a ≤ b`. -/
def keyLe (a b : Nat × Nat) : Bool :=
  decide (a.1 < b.1) || (decide (a.1 = b.1) && decide (a.2 ≤ b.2))

/-- Stable descending insertion: `t` goes in front of the first element whose
key is `≤` its own, so among equal keys the earlier-inserted element stays
first — the order produced by Python's stable `sorted(..., reverse=True)`. -/
def insertDesc (t : Thumbnail) : List Thumbnail → List Thumbnail
  | [] => [t]
  | u :: us =>
    if keyLe (thumbKey u) (thumbKey t) then t :: u :: us
    else u :: insertDesc t us

/-- `sorted(thumbnails, key=lambda x: (x.get('width',0), x.get('height',0)),
reverse=True)` (yd.py lines 156-158): a stable sort, descending in the key. -/
def sortThumbs (ts : List Thumbnail) : List Thumbnail :=
  ts.foldr insertDesc []

/-- The `quality_preferences` dictionary (yd.py lines 147-153). -/
def quality_preferences (q : String) : Option (List String) :=
  if q = "maxres" then some ["maxresdefault", "maxres"]
  else if q = "high" then some ["hqdefault", "high"]
  else if q = "medium" then some ["mqdefault", "medium"]
  else if q = "standard" then some ["sddefault", "standard"]
  else if q = "default" then some ["default"]
  else none

/-- The identifier scan (yd.py lines 164-167): for each preference substring
in order, the first sorted candidate whose lowercased identifier contains it. -/
def findByPref (sorted : List Thumbnail) : List String → Option String
  | [] => none
  | p :: ps =>
    match sorted.find? (fun t => containsStr p (lowerStr t.id)) with
    | some t => some t.url
    | none => findByPref sorted ps

/-- The width-bucket scan for `high`/`medium`/`standard` (yd.py lines 172-183). -/
def widthRule (sorted : List Thumbnail) (quality : String) : Option Thumbnail :=
  if quality = "high" then
    sorted.find? (fun t => decide (1280 ≤ t.width.getD 0))
  else if quality = "medium" then
    sorted.find? (fun t => decide (640 ≤ t.width.getD 0) && decide (t.width.getD 0 < 1280))
  else if quality = "standard" then
    sorted.find? (fun t => decide (480 ≤ t.width.getD 0) && decide (t.width.getD 0 < 640))
  else none

/-- `ThumbnailDownloader.select_thumbnail_by_quality` (yd.py lines 144-186):
sort descending by (width, height); scan identifier preferences
(`quality_preferences.get(quality, ['maxresdefault'])`); for `maxres` return
the first sorted candidate (or `None` on an empty list); otherwise try the
width buckets; finally fall back to the first sorted candidate. -/
def select_thumbnail_by_quality (thumbnails : List Thumbnail) (quality : String) :
    Option String :=
  match findByPref (sortThumbs thumbnails)
      ((quality_preferences quality).getD ["maxresdefault"]) with
  | some u => some u
  | none =>
    if quality = "maxres" then (sortThumbs thumbnails).head?.map Thumbnail.url
    else
      match widthRule (sortThumbs thumbnails) quality with
      | some t => some t.url
      | none => (sortThumbs thumbnails).head?.map Thumbnail.url

/-- The claim's preference table, following the spec's words: an ordered
substring list is defined for exactly the five documented tiers. -/
def specPreferences (q : String) : List String :=
  if q = "maxres" then ["maxresdefault", "maxres"]
  else if q = "high" then ["hqdefault", "high"]
  else if q = "medium" then ["mqdefault", "medium"]
  else if q = "standard" then ["sddefault", "standard"]
  else if q = "default" then ["default"]
  else []

/-- The claim's resolution rule, following the spec's words: `maxres` takes the
first sorted candidate; `high`/`medium`/`standard` take the first candidate in
their width bucket; no rule is given for `default`. -/
def specResolutionRule (sorted : List Thumbnail) (q : String) : Option String :=
  if q = "maxres" then sorted.head?.map Thumbnail.url
  else if q = "high" then
    (sorted.find? (fun t => decide (1280 ≤ t.width.getD 0))).map Thumbnail.url
  else if q = "medium" then
    (sorted.find? (fun t => decide (640 ≤ t.width.getD 0) && decide (t.width.getD 0 < 1280))).map Thumbnail.url
  else if q = "standard" then
    (sorted.find? (fun t => decide (480 ≤ t.width.getD 0) && decide (t.width.getD 0 < 640))).map Thumbnail.url
  else none

/-- The selection algorithm exactly as the claim states it: sort descending by
(width, height) with absent dimensions as 0; return the first sorted candidate
whose identifier contains (case-insensitively) a tier preference substring,
earlier substrings first; otherwise apply the tier's resolution rule;
otherwise return the first (highest-resolution) candidate's URL. -/
def specSelectThumbnail (thumbnails : List Thumbnail) (quality : String) :
    Option String :=
  match findByPref (sortThumbs thumbnails) (specPreferences quality) with
  | some u => some u
  | none =>
    match specResolutionRule (sortThumbs thumbnails) quality with
    | some u => some u
    | none => (sortThumbs thumbnails).head?.map Thumbnail.url

lemma insertDesc_ne_nil (t : Thumbnail) (l : List Thumbnail) : insertDesc t l ≠ [] := by
  cases l with
  | nil => simp [insertDesc]
  | cons u us => simp only [insertDesc]; split <;> simp

lemma sortThumbs_eq_nil_iff (ts : List Thumbnail) : sortThumbs ts = [] ↔ ts = [] := by
  cases ts with
  | nil => simp [sortThumbs]
  | cons t ts' => simp [sortThumbs, insertDesc_ne_nil]

lemma mem_insertDesc {u : Thumbnail} (t : Thumbnail) (l : List Thumbnail) :
    u ∈ insertDesc t l ↔ u = t ∨ u ∈ l := by
  induction l with
  | nil => simp [insertDesc]
  | cons v vs ih =>
    simp only [insertDesc]
    split
    · simp [List.mem_cons]
    · simp [List.mem_cons, ih]; tauto

lemma mem_sortThumbs {u : Thumbnail} (ts : List Thumbnail) :
    u ∈ sortThumbs ts ↔ u ∈ ts := by
  induction ts with
  | nil => simp [sortThumbs]
  | cons t ts' ih =>
    simp only [sortThumbs, List.foldr] at ih ⊢
    rw [mem_insertDesc, ih, List.mem_cons]

lemma findByPref_nil (ps : List String) : findByPref [] ps = none := by
  induction ps with
  | nil => rfl
  | cons p ps ih => simp [findByPref, List.find?, ih]

lemma findByPref_mem {s : List Thumbnail} {ps : List String} {u : String}
    (h : findByPref s ps = some u) : ∃ t ∈ s, u = t.url := by
  induction ps with
  | nil => simp [findByPref] at h
  | cons p ps ih =>
    simp only [findByPref] at h
    cases hf : s.find? (fun t => containsStr p (lowerStr t.id)) with
    | some t =>
      rw [hf] at h
      exact ⟨t, List.mem_of_find?_eq_some hf, (Option.some.inj h).symm⟩
    | none => rw [hf] at h; exact ih h

lemma widthRule_mem {s : List Thumbnail} {q : String} {t : Thumbnail}
    (h : widthRule s q = some t) : t ∈ s := by
  unfold widthRule at h
  split at h
  · exact List.mem_of_find?_eq_some h
  · split at h
    · exact List.mem_of_find?_eq_some h
    · split at h
      · exact List.mem_of_find?_eq_some h
      · cases h

lemma widthRule_nil (q : String) : widthRule [] q = none := by
  unfold widthRule; split <;> [skip; split] <;> [rfl; skip; split] <;> rfl

lemma select_some_of_ne_nil (ts : List Thumbnail) (q : String) (h : ts ≠ []) :
    ∃ t ∈ ts, select_thumbnail_by_quality ts q = some t.url := by
  have hs : sortThumbs ts ≠ [] := fun hn => h ((sortThumbs_eq_nil_iff ts).1 hn)
  obtain ⟨t0, l0, he⟩ : ∃ a l, sortThumbs ts = a :: l := by
    cases hh : sortThumbs ts with
    | nil => exact absurd hh hs
    | cons a l => exact ⟨a, l, rfl⟩
  have ht0 : t0 ∈ ts := (mem_sortThumbs ts).1 (he ▸ List.mem_cons_self t0 l0)
  unfold select_thumbnail_by_quality
  cases hf : findByPref (sortThumbs ts) ((quality_preferences q).getD ["maxresdefault"]) with
  | some u =>
    obtain ⟨t, htm, rfl⟩ := findByPref_mem hf
    exact ⟨t, (mem_sortThumbs ts).1 htm, by simp [hf]⟩
  | none =>
    by_cases hq : q = "maxres"
    · exact ⟨t0, ht0, by simp [hq, he]⟩
    · cases hw : widthRule (sortThumbs ts) q with
      | some t =>
        exact ⟨t, (mem_sortThumbs ts).1 (widthRule_mem hw), by simp [hq]⟩
      | none => exact ⟨t0, ht0, by simp [hq, he]⟩

lemma select_nil (q : String) : select_thumbnail_by_quality [] q = none := by
  unfold select_thumbnail_by_quality
  have h0 : sortThumbs [] = [] := rfl
  rw [h0, findByPref_nil, widthRule_nil]
  simp

lemma specResolutionRule_eq (s : List Thumbnail) (q : String) :
    specResolutionRule s q =
      if q = "maxres" then s.head?.map Thumbnail.url
      else (widthRule s q).map Thumbnail.url := by
  unfold specResolutionRule widthRule
  by_cases h1 : q = "maxres" <;> by_cases h2 : q = "high" <;>
    by_cases h3 : q = "medium" <;> by_cases h4 : q = "standard" <;>
      simp [h1, h2, h3, h4]

lemma select_eq_spec (ts : List Thumbnail) (q : String)
    (hpref : specPreferences q = (quality_preferences q).getD ["maxresdefault"]) :
    select_thumbnail_by_quality ts q = specSelectThumbnail ts q := by
  unfold select_thumbnail_by_quality specSelectThumbnail
  rw [hpref, specResolutionRule_eq]
  cases hf : findByPref (sortThumbs ts) ((quality_preferences q).getD ["maxresdefault"]) with
  | some u => simp [hf]
  | none =>
    simp only [hf]
    by_cases hq : q = "maxres"
    · simp only [hq, if_pos rfl]
      cases (sortThumbs ts).head? <;> simp
    · simp only [hq, if_neg hq]
      cases hw : widthRule (sortThumbs ts) q <;> simp [hw]

/-! ### URL validation (`YouTubeThumbnailGUI.validate_youtube_url`) -/

/-- The regex character class `[a-zA-Z0-9_-]`. -/
def isIdChar (c : Char) : Bool :=
  c.isAlphanum || c = '_' || c = '-'

/-- `([a-zA-Z0-9_-]{11})` matches at the start of `s`: at least 11 characters
remain and the first 11 are all in the class. -/
def idHere (s : List Char) : Bool :=
  decide (11 ≤ s.length) && (s.take 11).all isIdChar

/-- The three literal alternatives of the first pattern
`(?:youtube\.com/watch\?v=|youtu\.be/|youtube\.com/embed/)`. -/
def urlMarkers : List String :=
  ["youtube.com/watch?v=", "youtu.be/", "youtube.com/embed/"]

/-- The first pattern matches at the start of `s`: one of the literal
alternatives followed immediately by an 11-character identifier. -/
def pat1Here (s : List Char) : Bool :=
  urlMarkers.any (fun m => m.data.isPrefixOf s && idHere (s.drop m.data.length))

/-- `re.search` semantics: the pattern matches at some position, i.e. at the
start of some suffix. -/
def existsSuffix (p : List Char → Bool) : List Char → Bool
  | [] => p []
  | c :: cs => p (c :: cs) || existsSuffix p cs

/-- `.*` then continuation: the continuation matches at the start of some
suffix reachable without crossing a newline (`.` does not match `\n`). -/
def scanNoNL (p : List Char → Bool) : List Char → Bool
  | [] => p []
  | c :: cs => p (c :: cs) || (!(c = '\n') && scanNoNL p cs)

/-- `v=([a-zA-Z0-9_-]{11})` matches at the start of `s`. -/
def vParamHere (s : List Char) : Bool :=
  "v=".data.isPrefixOf s && idHere (s.drop 2)

/-- The second pattern `youtube\.com/watch\?.*v=([a-zA-Z0-9_-]{11})` matches
at the start of `s`. -/
def pat2Here (s : List Char) : Bool :=
  "youtube.com/watch?".data.isPrefixOf s &&
    scanNoNL vParamHere (s.drop "youtube.com/watch?".data.length)

/-- `YouTubeThumbnailGUI.validate_youtube_url` (yd.py lines 787-797):
true iff `re.search` finds either pattern anywhere in the string. -/
def validate_youtube_url (url : String) : Bool :=
  existsSuffix pat1Here url.data || existsSuffix pat2Here url.data

/-- The recognized URL shapes, following the claim's words: an 11-character
identifier (alphanumeric, underscore, hyphen) immediately after
`youtube.com/watch?v=`, `youtu.be/` or `youtube.com/embed/`, or a `v=`
parameter appearing after `youtube.com/watch?` (not necessarily in first
position among the query parameters, with no newline in between). -/
def RecognizedShape (url : String) : Prop :=
  (∃ pre m id rest, m ∈ urlMarkers ∧
      url.data = pre ++ m.data ++ id ++ rest ∧
      id.length = 11 ∧ ∀ c ∈ id, isIdChar c = true) ∨
  (∃ pre mid id rest,
      url.data = pre ++ "youtube.com/watch?".data ++ mid ++ "v=".data ++ id ++ rest ∧
      '\n' ∉ mid ∧ id.length = 11 ∧ ∀ c ∈ id, isIdChar c = true)

lemma existsSuffix_iff (p : List Char → Bool) (s : List Char) :
    existsSuffix p s = true ↔ ∃ pre suf, s = pre ++ suf ∧ p suf = true := by
  induction s with
  | nil =>
    simp only [existsSuffix]
    constructor
    · intro h; exact ⟨[], [], rfl, h⟩
    · rintro ⟨pre, suf, he, hp⟩
      obtain ⟨rfl, rfl⟩ := List.append_eq_nil.1 he.symm
      exact hp
  | cons c cs ih =>
    simp only [existsSuffix, Bool.or_eq_true, ih]
    constructor
    · rintro (h | ⟨pre, suf, rfl, hp⟩)
      · exact ⟨[], c :: cs, rfl, h⟩
      · exact ⟨c :: pre, suf, rfl, hp⟩
    · rintro ⟨pre, suf, he, hp⟩
      cases pre with
      | nil => left; simpa using he ▸ hp
      | cons d ds =>
        right
        obtain ⟨rfl, rfl⟩ : c = d ∧ cs = ds ++ suf := by
          simpa using And.intro (List.head_eq_of_cons_eq he)
            (List.tail_eq_of_cons_eq he)
        exact ⟨ds, suf, rfl, hp⟩

lemma scanNoNL_iff (p : List Char → Bool) (s : List Char) :
    scanNoNL p s = true ↔
      ∃ pre suf, s = pre ++ suf ∧ '\n' ∉ pre ∧ p suf = true := by
  induction s with
  | nil =>
    simp only [scanNoNL]
    constructor
    · intro h; exact ⟨[], [], rfl, by simp, h⟩
    · rintro ⟨pre, suf, he, _, hp⟩
      obtain ⟨rfl, rfl⟩ := List.append_eq_nil.1 he.symm
      exact hp
  | cons c cs ih =>
    simp only [scanNoNL, Bool.or_eq_true, Bool.and_eq_true, ih]
    constructor
    · rintro (h | ⟨hnl, pre, suf, rfl, hpre, hp⟩)
      · exact ⟨[], c :: cs, rfl, by simp, h⟩
      · refine ⟨c :: pre, suf, rfl, ?_, hp⟩
        simp only [List.mem_cons, not_or]
        exact ⟨fun hc => by simp [hc.symm] at hnl, hpre⟩
    · rintro ⟨pre, suf, he, hpre, hp⟩
      cases pre with
      | nil => left; simpa using he ▸ hp
      | cons d ds =>
        right
        obtain ⟨rfl, rfl⟩ : c = d ∧ cs = ds ++ suf := by
          simpa using And.intro (List.head_eq_of_cons_eq he)
            (List.tail_eq_of_cons_eq he)
        simp only [List.mem_cons, not_or] at hpre
        refine ⟨by simp [Ne.symm hpre.1], ds, suf, rfl, hpre.2, hp⟩

lemma idHere_iff (s : List Char) :
    idHere s = true ↔
      ∃ id rest, s = id ++ rest ∧ id.length = 11 ∧ ∀ c ∈ id, isIdChar c = true := by
  constructor
  · intro h
    simp only [idHere, Bool.and_eq_true, decide_eq_true_eq, List.all_eq_true] at h
    refine ⟨s.take 11, s.drop 11, (List.take_append_drop 11 s).symm, ?_, h.2⟩
    simp [List.length_take, h.1]
  · rintro ⟨id, rest, rfl, hlen, hall⟩
    simp only [idHere, Bool.and_eq_true, decide_eq_true_eq, List.all_eq_true]
    constructor
    · simp [List.length_append, hlen]
    · intro c hc
      apply hall
      rw [List.take_append_eq_append_take, hlen] at hc
      simp only [Nat.sub_self, List.take_zero, List.append_nil] at hc
      exact List.mem_of_mem_take (hlen ▸ hc)

lemma isPrefixOf_drop_iff (m s : List Char) (p : List Char → Bool) :
    (m.isPrefixOf s && p (s.drop m.length)) = true ↔
      ∃ t, s = m ++ t ∧ p t = true := by
  simp only [Bool.and_eq_true, List.isPrefixOf_iff_prefix]
  constructor
  · rintro ⟨⟨t, rfl⟩, hp⟩
    exact ⟨t, rfl, by simpa [List.drop_left] using hp⟩
  · rintro ⟨t, rfl, hp⟩
    exact ⟨⟨t, rfl⟩, by simpa [List.drop_left] using hp⟩

lemma pat1Here_iff (s : List Char) :
    pat1Here s = true ↔
      ∃ m ∈ urlMarkers, ∃ id rest,
        s = m.data ++ id ++ rest ∧ id.length = 11 ∧ ∀ c ∈ id, isIdChar c = true := by
  simp only [pat1Here, List.any_eq_true]
  constructor
  · rintro ⟨m, hm, hmp⟩
    obtain ⟨t, rfl, hid⟩ := (isPrefixOf_drop_iff m.data s idHere).1 hmp
    obtain ⟨id, rest, rfl, hlen, hall⟩ := (idHere_iff t).1 hid
    exact ⟨m, hm, id, rest, (List.append_assoc _ _ _).symm, hlen, hall⟩
  · rintro ⟨m, hm, id, rest, rfl, hlen, hall⟩
    refine ⟨m, hm, (isPrefixOf_drop_iff m.data _ idHere).2
      ⟨id ++ rest, List.append_assoc _ _ _, (idHere_iff _).2 ⟨id, rest, rfl, hlen, hall⟩⟩⟩

lemma vParamHere_iff (s : List Char) :
    vParamHere s = true ↔
      ∃ id rest, s = "v=".data ++ id ++ rest ∧ id.length = 11 ∧
        ∀ c ∈ id, isIdChar c = true := by
  have h2 : "v=".data.length = 2 := rfl
  constructor
  · intro h
    rw [vParamHere, ← h2] at h
    obtain ⟨t, rfl, hid⟩ := (isPrefixOf_drop_iff _ s idHere).1 h
    obtain ⟨id, rest, rfl, hlen, hall⟩ := (idHere_iff t).1 hid
    exact ⟨id, rest, (List.append_assoc _ _ _).symm, hlen, hall⟩
  · rintro ⟨id, rest, rfl, hlen, hall⟩
    rw [vParamHere, ← h2]
    exact (isPrefixOf_drop_iff _ _ idHere).2
      ⟨id ++ rest, List.append_assoc _ _ _, (idHere_iff _).2 ⟨id, rest, rfl, hlen, hall⟩⟩

lemma pat2Here_iff (s : List Char) :
    pat2Here s = true ↔
      ∃ mid id rest,
        s = "youtube.com/watch?".data ++ mid ++ "v=".data ++ id ++ rest ∧
        '\n' ∉ mid ∧ id.length = 11 ∧ ∀ c ∈ id, isIdChar c = true := by
  rw [pat2Here]
  rw [isPrefixOf_drop_iff "youtube.com/watch?".data s (scanNoNL vParamHere)]
  constructor
  · rintro ⟨t, rfl, hscan⟩
    obtain ⟨mid, suf, rfl, hmid, hv⟩ := (scanNoNL_iff vParamHere t).1 hscan
    obtain ⟨id, rest, rfl, hlen, hall⟩ := (vParamHere_iff suf).1 hv
    exact ⟨mid, id, rest, by simp [List.append_assoc], hmid, hlen, hall⟩
  · rintro ⟨mid, id, rest, he, hmid, hlen, hall⟩
    refine ⟨mid ++ "v=".data ++ id ++ rest, by simpa [List.append_assoc] using he, ?_⟩
    exact (scanNoNL_iff vParamHere _).2
      ⟨mid, "v=".data ++ id ++ rest, by simp [List.append_assoc], hmid,
        (vParamHere_iff _).2 ⟨id, rest, rfl, hlen, hall⟩⟩

/-! ### Worker threads as trace functions

Each `run` body is embedded as a pure function from the results of its
external calls to the ordered list of Qt signals it emits.  An external call
that may raise is an `Except String` value (the `error` case carrying
`str(e)`). -/

deriving instance DecidableEq for Except

/-- A signal emitted by `VideoInfoExtractor`: `progress(str)` or
`finished(bool, dict)`, the dict being either the `video_data` record or
`{'error': str(e)}`. -/
inductive InfoSignal where
  | progress (msg : String)
  | finished (success : Bool) (data : Except String VideoData)
deriving DecidableEq, Repr

/-- `VideoInfoExtractor.run` (yd.py lines 37-71): emit a progress message,
call `extract_info`, then either emit the completion progress message and
`finished(True, video_data)`, or — when the library raises — `finished(False,
{'error': str(e)})`. -/
def video_info_extractor_run (url : String) (extract : Except String InfoDict) :
    List InfoSignal :=
  match extract with
  | .ok info =>
    [.progress "YouTube 비디오 정보를 가져오는 중...",
     .progress "비디오 정보 추출 완료!",
     .finished true (.ok (build_video_data url info))]
  | .error e =>
    [.progress "YouTube 비디오 정보를 가져오는 중...",
     .finished false (.error e)]

/-- A signal emitted by `VideoDownloader`: `progress(str)`,
`progress_percent(int)` or `finished(bool, str)`. -/
inductive DlSignal where
  | progress (msg : String)
  | percent (n : Int)
  | finished (success : Bool) (msg : String)
deriving DecidableEq, Repr

/-- A yt-dlp progress event dictionary, as read by `progress_hook`:
`status` is always present; the other keys may be missing. -/
structure ProgressDict where
  status : String
  total_bytes : Option Nat
  downloaded_bytes : Option Nat
  percent_str : Option String
deriving DecidableEq, Repr

/-- Outcome of one `progress_hook` invocation: the emitted signals, or an
uncaught exception (`d['downloaded_bytes']` on a missing key, or a division
by zero — the hook has no handler for either). -/
inductive HookResult where
  | ok (sigs : List DlSignal)
  | keyError
  | zeroDivError
deriving DecidableEq, Repr

/-- Guarded integer percentage: `int((downloaded / total) * 100)`, `none` when
the divisor is zero (Python would raise `ZeroDivisionError`).  Exact natural
division stands in for the float computation truncated by `int`. -/
def ratioPercent (downloaded total : Nat) : Option Nat :=
  if total = 0 then none else some (downloaded * 100 / total)

/-- Python `s.strip('%')`: remove `%` from both ends. -/
def stripPercentSigns (s : String) : String :=
  ⟨((s.data.dropWhile (· = '%')).reverse.dropWhile (· = '%')).reverse⟩

/-- The `progress_hook` closure in `VideoDownloader.run` (yd.py lines
206-222).  `parse` abstracts Python's `int(float(·))`, returning `none` when
the conversion raises (the bare `except:` branch). -/
def progress_hook (parse : String → Option Int) (d : ProgressDict) : HookResult :=
  if d.status = "downloading" then
    match d.total_bytes with
    | some t =>
      if t ≠ 0 then
        match d.downloaded_bytes with
        | none => .keyError
        | some db =>
          match ratioPercent db t with
          | none => .zeroDivError
          | some p =>
            .ok [.percent (p : Int), .progress ("다운로드 중... " ++ toString p ++ "%")]
      else
        match d.percent_str with
        | some ps =>
          match parse (stripPercentSigns ps) with
          | some p => .ok [.percent p, .progress ("다운로드 중... " ++ toString p ++ "%")]
          | none => .ok [.progress "다운로드 중..."]
        | none => .ok []
    | none =>
      match d.percent_str with
      | some ps =>
        match parse (stripPercentSigns ps) with
        | some p => .ok [.percent p, .progress ("다운로드 중... " ++ toString p ++ "%")]
        | none => .ok [.progress "다운로드 중..."]
      | none => .ok []
  else if d.status = "finished" then
    .ok [.progress "다운로드 완료, 후처리 중...", .percent 100]
  else .ok []

/-- Run the hook over the library's progress events in order; a hook
exception aborts the download call (yt-dlp propagates it), so later events
are not processed.  Returns the emitted signals and the exception, if any. -/
def run_hooks (parse : String → Option Int) :
    List ProgressDict → List DlSignal × Option HookResult
  | [] => ([], none)
  | d :: ds =>
    match progress_hook parse d with
    | .ok sigs =>
      match run_hooks parse ds with
      | (rest, e) => (sigs ++ rest, e)
    | e => ([], some e)

/-- `VideoDownloader.run` (yd.py lines 202-271): start message, then the
download call (its progress events drive the hook), then exactly one
`finished` signal — `True` with the success text on completion, `False` with
`"다운로드 실패: " + str(e)` when the download call or a hook raises. -/
def video_downloader_run (save_path : String)
    (parse : String → Option Int) (events : List ProgressDict)
    (outcome : Except String Unit) (hookErrMsg : HookResult → String) :
    List DlSignal :=
  match run_hooks parse events with
  | (hookSigs, some e) =>
    [.progress "비디오 다운로드를 시작합니다..."] ++ hookSigs ++
      [.finished false ("다운로드 실패: " ++ hookErrMsg e)]
  | (hookSigs, none) =>
    match outcome with
    | .error e =>
      [.progress "비디오 다운로드를 시작합니다..."] ++ hookSigs ++
        [.finished false ("다운로드 실패: " ++ e)]
    | .ok _ =>
      [.progress "비디오 다운로드를 시작합니다..."] ++ hookSigs ++
        [.progress "다운로드가 완료되었습니다!",
         .finished true ("비디오가 성공적으로 다운로드되었습니다!\n저장 위치: " ++ save_path)]

/-- A signal emitted by `ThumbnailDownloader`: `progress(str)` or
`finished(bool, str)`. -/
inductive ThumbSignal where
  | progress (msg : String)
  | finished (success : Bool) (msg : String)
deriving DecidableEq, Repr

/-- The parts of an HTTP response `ThumbnailDownloader.run` reads:
`ok` decides whether `raise_for_status()` raises, `content_type` is
`response.headers.get('content-type', '')`. -/
structure HttpResponse where
  ok : Bool
  content_type : Option String
deriving DecidableEq, Repr

/-- POSIX `os.path.join(dir, name)`. -/
def joinPath (dir name : String) : String :=
  dir ++ "/" ++ name

/-- `ThumbnailDownloader.run` (yd.py lines 85-142): fetch metadata, fail on an
empty candidate list, select by quality, fail on a falsy selection (`None` or
the empty string), otherwise fetch the selected URL and save.  Returns the
emitted signals together with the list of URLs actually requested over HTTP.
`http` abstracts `requests.get` (`error` = exception, e.g. from
`raise_for_status`). -/
def thumbnail_downloader_run (extract : Except String InfoDict)
    (http : String → Except String HttpResponse)
    (save_path quality : String) : List ThumbSignal × List String :=
  match extract with
  | .error e =>
    ([.progress "YouTube URL 정보를 가져오는 중...",
      .finished false ("오류 발생: " ++ e)], [])
  | .ok info =>
    let video_title := info.title.getD "Unknown"
    let thumbnails := info.thumbnails.getD []
    if thumbnails.isEmpty then
      ([.progress "YouTube URL 정보를 가져오는 중...",
        .finished false "썸네일을 찾을 수 없습니다."], [])
    else
      match select_thumbnail_by_quality thumbnails quality with
      | none =>
        ([.progress "YouTube URL 정보를 가져오는 중...",
          .finished false "선택한 품질의 썸네일을 찾을 수 없습니다."], [])
      | some thumbnail_url =>
        if thumbnail_url = "" then
          ([.progress "YouTube URL 정보를 가져오는 중...",
            .finished false "선택한 품질의 썸네일을 찾을 수 없습니다."], [])
        else
          match http thumbnail_url with
          | .error e =>
            ([.progress "YouTube URL 정보를 가져오는 중...",
              .progress ("썸네일 다운로드 중... (" ++ quality ++ ")"),
              .finished false ("오류 발생: " ++ e)], [thumbnail_url])
          | .ok resp =>
            if resp.ok then
              ([.progress "YouTube URL 정보를 가져오는 중...",
                .progress ("썸네일 다운로드 중... (" ++ quality ++ ")"),
                .progress "썸네일 저장 완료!",
                .finished true ("썸네일이 저장되었습니다:\n" ++
                  joinPath save_path
                    (thumbnail_filename video_title quality (resp.content_type.getD "")))],
               [thumbnail_url])
            else
              ([.progress "YouTube URL 정보를 가져오는 중...",
                .progress ("썸네일 다운로드 중... (" ++ quality ++ ")"),
                .finished false ("오류 발생: HTTPError")], [thumbnail_url])

/-! ### Interface state and slot handlers -/

/-- The interface state owned by `YouTubeThumbnailGUI`: the enabled flags of
the triggering controls, progress-bar visibility, the stored metadata and the
chosen destination directories. -/
structure GUIState where
  info_button_enabled : Bool
  qr_button_enabled : Bool
  download_button_enabled : Bool
  video_download_button_enabled : Bool
  progress_bar_visible : Bool
  video_progress_bar_visible : Bool
  video_data : Option VideoData
  save_path : String
  video_save_path : String
deriving DecidableEq, Repr

/-- `info_extraction_finished` (yd.py lines 558-572): unconditionally
re-enable the fetch button and hide the progress bar; on success store the
metadata and enable the QR button. -/
def info_extraction_finished (st : GUIState) (success : Bool)
    (data : Except String VideoData) : GUIState :=
  let st1 := { st with info_button_enabled := true, progress_bar_visible := false }
  if success then
    match data with
    | .ok d => { st1 with video_data := some d, qr_button_enabled := true }
    | .error _ => st1
  else st1

/-- `video_download_finished` (yd.py lines 774-785): unconditionally
re-enable the download button and hide the progress bar. -/
def video_download_finished (st : GUIState) (_success : Bool) (_msg : String) :
    GUIState :=
  { st with video_download_button_enabled := true, video_progress_bar_visible := false }

/-- `download_finished` (yd.py lines 834-845): unconditionally re-enable the
thumbnail download button and hide the progress bar. -/
def download_finished (st : GUIState) (_success : Bool) (_msg : String) :
    GUIState :=
  { st with download_button_enabled := true, progress_bar_visible := false }

/-- The constructor arguments a spawned `VideoDownloader` would receive. -/
structure VideoWorkerSpec where
  url : String
  save_path : String
  quality : String
  format_type : String
deriving DecidableEq, Repr

/-- The constructor arguments a spawned `ThumbnailDownloader` would receive. -/
structure ThumbWorkerSpec where
  url : String
  save_path : String
  quality : String
deriving DecidableEq, Repr

/-- `download_video` (yd.py lines 725-768): reject with a warning dialog when
no metadata is stored or the destination directory does not exist; otherwise
disable the button, show the progress bar and spawn the worker.  `pathExists`
abstracts `os.path.exists`; `quality_data`/`type_data` are the combo boxes'
current data (`None` falls back to `"best"`/`"video"`).  Returns the new
state, the warning text (if rejected) and the spawned worker (if any). -/
def download_video (pathExists : String → Bool)
    (quality_data type_data : Option String) (st : GUIState) :
    GUIState × Option String × Option VideoWorkerSpec :=
  match st.video_data with
  | none => (st, some "먼저 비디오 정보를 가져와주세요.", none)
  | some vd =>
    if pathExists st.video_save_path then
      let quality := quality_data.getD "best"
      let format_type := type_data.getD "video"
      ({ st with video_download_button_enabled := false,
                 video_progress_bar_visible := true },
       none,
       some ⟨vd.url, st.video_save_path, quality, format_type⟩)
    else
      (st, some "저장 경로가 존재하지 않습니다.", none)

/-- `download_thumbnail` (yd.py lines 799-828): same guards for the thumbnail
action; the quality combo's `None` falls back to `"maxres"`. -/
def download_thumbnail (pathExists : String → Bool)
    (quality_data : Option String) (st : GUIState) :
    GUIState × Option String × Option ThumbWorkerSpec :=
  match st.video_data with
  | none => (st, some "먼저 비디오 정보를 가져와주세요.", none)
  | some vd =>
    if pathExists st.save_path then
      let quality := quality_data.getD "maxres"
      ({ st with download_button_enabled := false, progress_bar_visible := true },
       none,
       some ⟨vd.url, st.save_path, quality⟩)
    else
      (st, some "저장 경로가 존재하지 않습니다.", none)

/-! ### Helper lemmas on the traces -/

/-- The `finished`-signal filter for `VideoInfoExtractor` traces. -/
def isInfoFinished : InfoSignal → Bool
  | .finished _ _ => true
  | _ => false

/-- The `finished`-signal filter for `VideoDownloader` traces. -/
def isDlFinished : DlSignal → Bool
  | .finished _ _ => true
  | _ => false

lemma progress_hook_ok_no_finished {parse : String → Option Int}
    {d : ProgressDict} {sigs : List DlSignal}
    (h : progress_hook parse d = .ok sigs) (b : Bool) (m : String) :
    DlSignal.finished b m ∉ sigs := by
  unfold progress_hook at h
  repeat' split at h
  all_goals first
    | (cases h; simp)
    | simp_all

lemma run_hooks_no_finished (parse : String → Option Int)
    (events : List ProgressDict) (b : Bool) (m : String) :
    DlSignal.finished b m ∉ (run_hooks parse events).1 := by
  induction events with
  | nil => simp [run_hooks]
  | cons d ds ih =>
    simp only [run_hooks]
    cases hd : progress_hook parse d with
    | ok sigs =>
      simp only [List.mem_append]
      rintro (hm | hm)
      · exact progress_hook_ok_no_finished hd b m hm
      · exact ih (by simpa [Prod.fst] using hm)
    | keyError => simp
    | zeroDivError => simp

lemma run_hooks_filter_finished_nil (parse : String → Option Int)
    (events : List ProgressDict) :
    (run_hooks parse events).1.filter isDlFinished = [] := by
  rw [List.filter_eq_nil_iff]
  intro s hs
  cases s with
  | finished b m => exact absurd hs (run_hooks_no_finished parse events b m)
  | progress _ => simp [isDlFinished]
  | percent _ => simp [isDlFinished]

lemma error_prefix_ne_quality_msg (e : String) :
    ("오류 발생: " ++ e) ≠ "선택한 품질의 썸네일을 찾을 수 없습니다." := by
  intro h
  have h2 : ("오류 발생: " ++ e).data = '오' :: ("류 발생: ".data ++ e.data) := rfl
  have h3 := congrArg String.data h
  rw [h2] at h3
  simp at h3

/-! ### The claims -/

/-- C1: for every candidate list and each of the five documented quality
tiers, `select_thumbnail_by_quality` computes exactly the algorithm the spec
states (stable descending (width, height) sort with absent dimensions as 0,
identifier-substring preferences in order, the tier's resolution rule, then
the first-sorted-candidate fallback), and it returns `none` if and only if
the candidate list is empty. -/
theorem C1_select_thumbnail_correct (ts : List Thumbnail) (q : String)
    (hq : q ∈ ["maxres", "high", "medium", "standard", "default"]) :
    select_thumbnail_by_quality ts q = specSelectThumbnail ts q ∧
      (select_thumbnail_by_quality ts q = none ↔ ts = []) := by
  constructor
  · fin_cases hq <;> exact select_eq_spec ts _ (by decide)
  · constructor
    · intro h
      by_contra hne
      obtain ⟨t, _, he⟩ := select_some_of_ne_nil ts q hne
      rw [h] at he
      cases he
    · intro h
      subst h
      exact select_nil q

/-- C1 witness: the spec's own example, candidates of widths 1920
(`maxresdefault`) and 640 (`mqdefault`) at tier `maxres`. -/
theorem C1_select_thumbnail_correct_witness :
    "maxres" ∈ ["maxres", "high", "medium", "standard", "default"] ∧
      (select_thumbnail_by_quality
          [⟨some 640, none, "mqdefault", "uB"⟩, ⟨some 1920, none, "maxresdefault", "uA"⟩]
          "maxres" =
        specSelectThumbnail
          [⟨some 640, none, "mqdefault", "uB"⟩, ⟨some 1920, none, "maxresdefault", "uA"⟩]
          "maxres" ∧
      (select_thumbnail_by_quality
          [⟨some 640, none, "mqdefault", "uB"⟩, ⟨some 1920, none, "maxresdefault", "uA"⟩]
          "maxres" = none ↔
        ([⟨some 640, none, "mqdefault", "uB"⟩,
          ⟨some 1920, none, "maxresdefault", "uA"⟩] : List Thumbnail) = [])) :=
  ⟨by decide, C1_select_thumbnail_correct _ _ (by decide)⟩

/-- C2: `validate_youtube_url` returns true exactly on the recognized URL
shapes — an 11-character `[a-zA-Z0-9_-]` identifier right after
`youtube.com/watch?v=`, `youtu.be/` or `youtube.com/embed/`, or a `v=`
parameter (in any position) after `youtube.com/watch?` — and false for every
other string. -/
theorem C2_validate_url_iff_recognized (url : String) :
    validate_youtube_url url = true ↔ RecognizedShape url := by
  unfold validate_youtube_url RecognizedShape
  rw [Bool.or_eq_true, existsSuffix_iff, existsSuffix_iff]
  constructor
  · rintro (⟨pre, suf, he, hp⟩ | ⟨pre, suf, he, hp⟩)
    · obtain ⟨m, hm, id, rest, rfl, hlen, hall⟩ := (pat1Here_iff suf).1 hp
      exact Or.inl ⟨pre, m, id, rest, hm, by simpa [List.append_assoc] using he, hlen, hall⟩
    · obtain ⟨mid, id, rest, rfl, hmid, hlen, hall⟩ := (pat2Here_iff suf).1 hp
      exact Or.inr ⟨pre, mid, id, rest, by simpa [List.append_assoc] using he, hmid, hlen, hall⟩
  · rintro (⟨pre, m, id, rest, hm, he, hlen, hall⟩ |
      ⟨pre, mid, id, rest, he, hmid, hlen, hall⟩)
    · exact Or.inl ⟨pre, m.data ++ id ++ rest, by simpa [List.append_assoc] using he,
        (pat1Here_iff _).2 ⟨m, hm, id, rest, rfl, hlen, hall⟩⟩
    · exact Or.inr ⟨pre, "youtube.com/watch?".data ++ mid ++ "v=".data ++ id ++ rest,
        by simpa [List.append_assoc] using he,
        (pat2Here_iff _).2 ⟨mid, id, rest, rfl, hmid, hlen, hall⟩⟩

/-- C3 counterexample to the claim as stated: with `description` missing, the
built record's description is the empty string, not `"Unknown"` (the source
default is `info.get('description', '')`). -/
theorem C3_description_default_not_unknown :
    (build_video_data "u"
        ⟨none, none, none, none, none, none, none, none, none⟩).description ≠
      "Unknown" := by
  decide

/-- C3 (amended): every missing field receives its defined default —
`"Unknown"` for title, uploader and upload_date, the empty string for
description, 0 for view_count, like_count and duration, and the empty list
for thumbnails and comments. -/
theorem C3_metadata_defaults (url : String) (info : InfoDict) :
    (info.title = none → (build_video_data url info).title = "Unknown") ∧
    (info.uploader = none → (build_video_data url info).uploader = "Unknown") ∧
    (info.upload_date = none → (build_video_data url info).upload_date = "Unknown") ∧
    (info.description = none → (build_video_data url info).description = "") ∧
    (info.view_count = none → (build_video_data url info).view_count = 0) ∧
    (info.like_count = none → (build_video_data url info).like_count = 0) ∧
    (info.duration = none → (build_video_data url info).duration = 0) ∧
    (info.thumbnails = none → (build_video_data url info).thumbnails = []) ∧
    (info.comments = none → (build_video_data url info).comments = []) := by
  refine ⟨?_, ?_, ?_, ?_, ?_, ?_, ?_, ?_, ?_⟩ <;>
    (intro h; simp [build_video_data, h])

/-- C3 witness: the record built from an entirely empty extraction result. -/
theorem C3_metadata_defaults_witness :
    (build_video_data "u" ⟨none, none, none, none, none, none, none, none, none⟩).title = "Unknown" ∧
    (build_video_data "u" ⟨none, none, none, none, none, none, none, none, none⟩).uploader = "Unknown" ∧
    (build_video_data "u" ⟨none, none, none, none, none, none, none, none, none⟩).upload_date = "Unknown" ∧
    (build_video_data "u" ⟨none, none, none, none, none, none, none, none, none⟩).description = "" ∧
    (build_video_data "u" ⟨none, none, none, none, none, none, none, none, none⟩).view_count = 0 ∧
    (build_video_data "u" ⟨none, none, none, none, none, none, none, none, none⟩).like_count = 0 ∧
    (build_video_data "u" ⟨none, none, none, none, none, none, none, none, none⟩).duration = 0 ∧
    (build_video_data "u" ⟨none, none, none, none, none, none, none, none, none⟩).thumbnails = [] ∧
    (build_video_data "u" ⟨none, none, none, none, none, none, none, none, none⟩).comments = [] := by
  have h := C3_metadata_defaults "u" ⟨none, none, none, none, none, none, none, none, none⟩
  exact ⟨h.1 rfl, h.2.1 rfl, h.2.2.1 rfl, h.2.2.2.1 rfl, h.2.2.2.2.1 rfl,
    h.2.2.2.2.2.1 rfl, h.2.2.2.2.2.2.1 rfl, h.2.2.2.2.2.2.2.1 rfl,
    h.2.2.2.2.2.2.2.2 rfl⟩

/-- C4: for a numeric-height quality selector (neither `best` nor `worst`)
with media type `audio`, the configured options equal the best+audio
configuration — bestaudio selector, MP3 at 192 — independent of the height;
the height appears only in the video branch's selector. -/
theorem C4_audio_ignores_height (q : String) (hb : q ≠ "best") (hw : q ≠ "worst") :
    configure_format q "audio" = configure_format "best" "audio" ∧
    (configure_format q "audio").format = "bestaudio[ext=m4a]/bestaudio" ∧
    (configure_format q "audio").postprocessors =
      [⟨"FFmpegExtractAudio", "mp3", "192"⟩] ∧
    (configure_format q "video").format =
      "best[height<=" ++ q ++ "][ext=mp4]/best[height<=" ++ q ++ "]" := by
  refine ⟨?_, ?_, ?_, ?_⟩ <;> simp [configure_format, hb, hw]

/-- C4 witness at height 720. -/
theorem C4_audio_ignores_height_witness :
    ("720" : String) ≠ "best" ∧ ("720" : String) ≠ "worst" ∧
    (configure_format "720" "audio" = configure_format "best" "audio" ∧
      (configure_format "720" "audio").format = "bestaudio[ext=m4a]/bestaudio" ∧
      (configure_format "720" "audio").postprocessors =
        [⟨"FFmpegExtractAudio", "mp3", "192"⟩] ∧
      (configure_format "720" "video").format =
        "best[height<=" ++ "720" ++ "][ext=mp4]/best[height<=" ++ "720" ++ "]") :=
  ⟨by decide, by decide, C4_audio_ignores_height "720" (by decide) (by decide)⟩

/-- C5: each worker run delivers the terminal `finished` signal exactly once —
on an exception exactly one failure delivery carrying the error text and no
success delivery, on completion exactly one success delivery — and every
completion handler re-enables its triggering control on either outcome. -/
theorem C5_finished_exactly_once (url save_path : String)
    (extract : Except String InfoDict) (parse : String → Option Int)
    (events : List ProgressDict) (outcome : Except String Unit)
    (hookErrMsg : HookResult → String) :
    ((video_info_extractor_run url extract).filter isInfoFinished).length = 1 ∧
    (∀ e, extract = .error e →
      (video_info_extractor_run url extract).filter isInfoFinished =
        [.finished false (.error e)]) ∧
    (∀ info, extract = .ok info →
      (video_info_extractor_run url extract).filter isInfoFinished =
        [.finished true (.ok (build_video_data url info))]) ∧
    ((video_downloader_run save_path parse events outcome hookErrMsg).filter
        isDlFinished).length = 1 ∧
    (∀ e sigs, run_hooks parse events = (sigs, none) → outcome = .error e →
      (video_downloader_run save_path parse events outcome hookErrMsg).filter
          isDlFinished = [.finished false ("다운로드 실패: " ++ e)]) ∧
    (∀ sigs, run_hooks parse events = (sigs, none) → outcome = .ok () →
      (video_downloader_run save_path parse events outcome hookErrMsg).filter
          isDlFinished =
        [.finished true ("비디오가 성공적으로 다운로드되었습니다!\n저장 위치: " ++ save_path)]) ∧
    (∀ st s d, (info_extraction_finished st s d).info_button_enabled = true) ∧
    (∀ st s m, (video_download_finished st s m).video_download_button_enabled = true) ∧
    (∀ st s m, (download_finished st s m).download_button_enabled = true) := by
  rcases hr : run_hooks parse events with ⟨sigs, err⟩
  have hs : sigs.filter isDlFinished = [] := by
    have h0 := run_hooks_filter_finished_nil parse events
    rw [hr] at h0
    exact h0
  refine ⟨?_, ?_, ?_, ?_, ?_, ?_, ?_, ?_, ?_⟩
  · cases extract <;> simp [video_info_extractor_run, isInfoFinished]
  · rintro e rfl; simp [video_info_extractor_run, isInfoFinished]
  · rintro info rfl; simp [video_info_extractor_run, isInfoFinished]
  · unfold video_downloader_run
    rw [hr]
    cases err with
    | some e => simp [List.filter_append, hs, isDlFinished]
    | none => cases outcome <;> simp [List.filter_append, hs, isDlFinished]
  · rintro e sigs' hr' rfl
    have hen : err = none := congrArg Prod.snd hr'
    subst hen
    unfold video_downloader_run
    rw [hr]
    simp [List.filter_append, hs, isDlFinished]
  · rintro sigs' hr' rfl
    have hen : err = none := congrArg Prod.snd hr'
    subst hen
    unfold video_downloader_run
    rw [hr]
    simp [List.filter_append, hs, isDlFinished]
  · intro st s d
    cases s <;> cases d <;> simp [info_extraction_finished]
  · intro st s m; simp [video_download_finished]
  · intro st s m; simp [download_finished]

/-- C5 witness: a failing extraction (`"boom"`), a failing download (`"x"`)
with no progress events, and the handlers on a fully disabled state. -/
theorem C5_finished_exactly_once_witness :
    ((video_info_extractor_run "u" (.error "boom")).filter isInfoFinished).length = 1 ∧
    (video_info_extractor_run "u" (.error "boom")).filter isInfoFinished =
      [.finished false (.error "boom")] ∧
    (video_downloader_run "sp" (fun _ => none) [] (.error "x")
        (fun _ => "hook")).filter isDlFinished =
      [.finished false ("다운로드 실패: " ++ "x")] ∧
    (info_extraction_finished
        ⟨false, false, false, false, false, false, none, "a", "b"⟩ false
        (.error "boom")).info_button_enabled = true := by
  have h := C5_finished_exactly_once "u" "sp" (.error "boom") (fun _ => none) []
    (.error "x") (fun _ => "hook")
  exact ⟨h.1, h.2.1 "boom" rfl, h.2.2.2.2.1 "x" [] rfl rfl, h.2.2.2.2.2.2.1 _ _ _⟩

/-- C6: a video- or thumbnail-download action with no stored metadata or a
non-existent destination directory is rejected with a warning, spawns no
worker, and leaves the interface state unchanged. -/
theorem C6_download_guards (pathExists : String → Bool)
    (qd td : Option String) (st : GUIState) :
    (st.video_data = none ∨ pathExists st.video_save_path = false →
      ∃ w, download_video pathExists qd td st = (st, some w, none)) ∧
    (st.video_data = none ∨ pathExists st.save_path = false →
      ∃ w, download_thumbnail pathExists qd st = (st, some w, none)) := by
  constructor
  · rintro (h | h)
    · exact ⟨"먼저 비디오 정보를 가져와주세요.", by simp [download_video, h]⟩
    · cases hv : st.video_data with
      | none => exact ⟨"먼저 비디오 정보를 가져와주세요.", by simp [download_video, hv]⟩
      | some vd => exact ⟨"저장 경로가 존재하지 않습니다.", by simp [download_video, hv, h]⟩
  · rintro (h | h)
    · exact ⟨"먼저 비디오 정보를 가져와주세요.", by simp [download_thumbnail, h]⟩
    · cases hv : st.video_data with
      | none => exact ⟨"먼저 비디오 정보를 가져와주세요.", by simp [download_thumbnail, hv]⟩
      | some vd => exact ⟨"저장 경로가 존재하지 않습니다.", by simp [download_thumbnail, hv, h]⟩

/-- C6 witness: no stored metadata, and a path oracle that denies every
directory. -/
theorem C6_download_guards_witness :
    (∃ w, download_video (fun _ => false) none none
        ⟨true, true, true, true, false, false, none, "a", "b"⟩ =
      (⟨true, true, true, true, false, false, none, "a", "b"⟩, some w, none)) ∧
    (∃ w, download_thumbnail (fun _ => false) none
        ⟨true, true, true, true, false, false, none, "a", "b"⟩ =
      (⟨true, true, true, true, false, false, none, "a", "b"⟩, some w, none)) := by
  have h := C6_download_guards (fun _ => false) none none
    ⟨true, true, true, true, false, false, none, "a", "b"⟩
  exact ⟨h.1 (Or.inl rfl), h.2 (Or.inl rfl)⟩

/-- C7: title sanitization replaces exactly `<>:"/\|?*` by underscores and
leaves every other character unchanged; `Test:Video/Name?` becomes
`Test_Video_Name_`; the saved file name is
`<sanitized-title>_thumbnail_<tier><ext>` with the extension inferred from
the content type (webp → `.webp`, png → `.png`, else `.jpg`). -/
theorem C7_sanitize_and_filename (title quality ct : String) :
    (sanitize_title title).data =
      title.data.map
        (fun c => if c ∈ ['<', '>', ':', '"', '/', '\\', '|', '?', '*'] then '_' else c) ∧
    sanitize_title "Test:Video/Name?" = "Test_Video_Name_" ∧
    thumbnail_filename title quality ct =
      sanitize_title title ++ "_thumbnail_" ++ quality ++ infer_ext ct ∧
    (containsStr "webp" ct = true → infer_ext ct = ".webp") ∧
    (containsStr "webp" ct = false → containsStr "png" ct = true →
      infer_ext ct = ".png") ∧
    (containsStr "webp" ct = false → containsStr "png" ct = false →
      infer_ext ct = ".jpg") := by
  refine ⟨?_, by decide, rfl, ?_, ?_, ?_⟩
  · simp only [sanitize_title]
    refine List.map_congr_left ?_
    intro c _
    by_cases hc : c ∈ ['<', '>', ':', '"', '/', '\\', '|', '?', '*'] <;>
      simp [badFilenameChar, hc]
  · intro h; simp [infer_ext, h]
  · intro h1 h2; simp [infer_ext, h1, h2]
  · intro h1 h2; simp [infer_ext, h1, h2]

/-- C7 witness: the spec's example title with a png content type. -/
theorem C7_sanitize_and_filename_witness :
    (sanitize_title "Test:Video/Name?").data =
      "Test:Video/Name?".data.map
        (fun c => if c ∈ ['<', '>', ':', '"', '/', '\\', '|', '?', '*'] then '_' else c) ∧
    sanitize_title "Test:Video/Name?" = "Test_Video_Name_" ∧
    thumbnail_filename "Test:Video/Name?" "maxres" "image/png" =
      sanitize_title "Test:Video/Name?" ++ "_thumbnail_" ++ "maxres" ++
        infer_ext "image/png" ∧
    infer_ext "image/png" = ".png" := by
  have h := C7_sanitize_and_filename "Test:Video/Name?" "maxres" "image/png"
  exact ⟨h.1, h.2.1, h.2.2.1, h.2.2.2.2.1 (by decide) (by decide)⟩

/-- C8: with an empty extracted candidate list, selection returns `none` and
the thumbnail-download flow delivers the distinct "no thumbnail found"
failure without issuing any HTTP request. -/
theorem C8_empty_candidates_no_transfer (extract : Except String InfoDict)
    (http : String → Except String HttpResponse) (save_path quality : String)
    (info : InfoDict) (hx : extract = .ok info)
    (hemp : info.thumbnails.getD [] = []) :
    select_thumbnail_by_quality (info.thumbnails.getD []) quality = none ∧
    thumbnail_downloader_run extract http save_path quality =
      ([.progress "YouTube URL 정보를 가져오는 중...",
        .finished false "썸네일을 찾을 수 없습니다."], []) := by
  subst hx
  refine ⟨by rw [hemp]; exact select_nil quality, ?_⟩
  simp [thumbnail_downloader_run, hemp]

/-- C8 witness: an extraction result with no thumbnail key at all. -/
theorem C8_empty_candidates_no_transfer_witness :
    select_thumbnail_by_quality
        ((⟨some "T", none, none, none, none, none, none, none, none⟩ :
          InfoDict).thumbnails.getD []) "maxres" = none ∧
    thumbnail_downloader_run
        (.ok ⟨some "T", none, none, none, none, none, none, none, none⟩)
        (fun _ => .error "e") "sp" "maxres" =
      ([.progress "YouTube URL 정보를 가져오는 중...",
        .finished false "썸네일을 찾을 수 없습니다."], []) :=
  C8_empty_candidates_no_transfer _ (fun _ => .error "e") "sp" "maxres"
    ⟨some "T", none, none, none, none, none, none, none, none⟩ rfl rfl

/-- C9: on a non-empty candidate list whose candidates all carry a non-empty
URL, selection returns some candidate's URL for every quality string, so the
"selected quality not found" failure branch of the thumbnail flow is
unreachable under that precondition. -/
theorem C9_selection_never_misses (ts : List Thumbnail) (q : String)
    (hne : ts ≠ []) (hurl : ∀ t ∈ ts, t.url ≠ "") :
    (∃ t ∈ ts, select_thumbnail_by_quality ts q = some t.url) ∧
    (∀ (info : InfoDict) (http : String → Except String HttpResponse)
        (save_path : String), info.thumbnails = some ts →
      ThumbSignal.finished false "선택한 품질의 썸네일을 찾을 수 없습니다." ∉
        (thumbnail_downloader_run (.ok info) http save_path q).1) := by
  obtain ⟨t, htm, hsel⟩ := select_some_of_ne_nil ts q hne
  refine ⟨⟨t, htm, hsel⟩, ?_⟩
  intro info http save_path hth
  have hurlne : t.url ≠ "" := hurl t htm
  have hemp : ts.isEmpty = false := by
    cases ts
    · exact absurd rfl hne
    · simp
  simp only [thumbnail_downloader_run]
  rw [hth]
  simp only [Option.getD_some, hemp, Bool.false_eq_true, if_false, hsel]
  rw [if_neg hurlne]
  cases hh : http t.url with
  | error e =>
    have hane : ("선택한 품질의 썸네일을 찾을 수 없습니다." : String) ≠ "오류 발생: " ++ e :=
      fun hcontr => error_prefix_ne_quality_msg e hcontr.symm
    simp [hane]
  | ok resp =>
    cases hro : resp.ok <;> simp [hro]

/-- C9 witness: one candidate with an unknown quality string. -/
theorem C9_selection_never_misses_witness :
    (∃ t ∈ ([⟨some 1920, none, "maxresdefault", "uA"⟩] : List Thumbnail),
      select_thumbnail_by_quality
        [⟨some 1920, none, "maxresdefault", "uA"⟩] "weird" = some t.url) ∧
    ThumbSignal.finished false "선택한 품질의 썸네일을 찾을 수 없습니다." ∉
      (thumbnail_downloader_run
        (.ok ⟨none, none, none, none, none, none, none,
          some [⟨some 1920, none, "maxresdefault", "uA"⟩], none⟩)
        (fun _ => .ok ⟨true, none⟩) "sp" "weird").1 := by
  have h := C9_selection_never_misses
    [⟨some 1920, none, "maxresdefault", "uA"⟩] "weird" (by decide) (by decide)
  exact ⟨h.1, h.2 _ (fun _ => .ok ⟨true, none⟩) "sp" rfl⟩

/-- C10: the byte-ratio percentage is computed only under the truthy
`total_bytes` guard, so the hook can never divide by zero; and when only a
textual percentage is supplied and fails to parse, the hook emits exactly the
indeterminate progress message and no percentage signal. -/
theorem C10_progress_hook_division_guarded (parse : String → Option Int)
    (d : ProgressDict) :
    progress_hook parse d ≠ .zeroDivError ∧
    (d.status = "downloading" →
      (d.total_bytes = none ∨ d.total_bytes = some 0) →
      ∀ ps, d.percent_str = some ps → parse (stripPercentSigns ps) = none →
        progress_hook parse d = .ok [.progress "다운로드 중..."]) := by
  constructor
  · intro h
    unfold progress_hook at h
    repeat' split at h
    all_goals simp_all [ratioPercent]
  · intro hst htb ps hps hparse
    unfold progress_hook
    rcases htb with h0 | h0 <;> simp [hst, h0, hps, hparse]

/-- C10 witness: a downloading event with no `total_bytes`, an unparsable
percentage string, and a parser that always fails. -/
theorem C10_progress_hook_division_guarded_witness :
    progress_hook (fun _ => none) ⟨"downloading", none, none, some "abc"⟩ ≠
      .zeroDivError ∧
    progress_hook (fun _ => none) ⟨"downloading", none, none, some "abc"⟩ =
      .ok [.progress "다운로드 중..."] := by
  have h := C10_progress_hook_division_guarded (fun _ => none)
    ⟨"downloading", none, none, some "abc"⟩
  exact ⟨h.1, h.2 rfl (Or.inl rfl) "abc" rfl rfl⟩

end YD
